import Mathlib

/-!
Verification development for the CUR (cost-and-usage report) forwarding
pipeline: the S3-event Lambda `cur_forwarder.py` and the one-time backfill
script `bootstrap_partitions.py`.

Python strings are modelled as Lean `String`s (lists of unicode scalar
characters), object keys as strings of `/`-separated segments.  The AWS
service calls (S3 `head_object` / `get_object` / `copy_object` /
`list_objects_v2`, Glue `get_table` / `update_partition` /
`create_partition`) are modelled by an explicit environment of oracle
functions returning `Except ClientError _`, and every embedded operation
additionally returns the list of mutating service calls it performed
(`SvcAction` trace), so that "the partition was never touched" and "no copy
was performed" are provable statements.
-/

/-- Python `str.split(sep)` on a single-character separator, over the
character list of a string.  `""` splits to `[""]`, exactly as in Python. -/
def splitChar (c : Char) : List Char → List (List Char)
  | [] => [[]]
  | x :: xs =>
    match splitChar c xs with
    | [] => [[]]
    | y :: ys => if x = c then [] :: y :: ys else (x :: y) :: ys

/-- Python `key.split('/')` returning strings. -/
def pySplitOn (c : Char) (s : String) : List String :=
  (splitChar c s.data).map (fun l => String.mk l)

/-- Python `s.startswith(p)`. -/
def pyStartsWith (s p : String) : Bool :=
  p.data.isPrefixOf s.data

/-- Python `s.endswith(p)`. -/
def pyEndsWith (s p : String) : Bool :=
  p.data.isSuffixOf s.data

/-- Python `s.lstrip(c)` for a single character. -/
def pyLstrip (c : Char) (s : String) : String :=
  String.mk (s.data.dropWhile (fun x => x == c))

/-- Python `s.rstrip(c)` for a single character. -/
def pyRstrip (c : Char) (s : String) : String :=
  String.mk ((s.data.reverse.dropWhile (fun x => x == c)).reverse)

/-- Python `s[n:]` (drop the first `n` characters). -/
def pyDrop (s : String) (n : Nat) : String :=
  String.mk (s.data.drop n)

/-- Python `"/".join(parts)`. -/
def joinSlash (parts : List String) : String :=
  String.intercalate "/" parts

/-- The anchored regex `^\d{8}T\d{6}Z$` (assembly-id pattern), as used by
`re.match` in `cur_forwarder.py` and `ASSEMBLY_RE.fullmatch` in
`bootstrap_partitions.py`. -/
def matchAssemblyId (s : String) : Bool :=
  let l := s.data
  l.length == 16 && (l.take 8).all Char.isDigit && l[8]? == some 'T' &&
    ((l.drop 9).take 6).all Char.isDigit && l[15]? == some 'Z'

/-- The anchored regex `^\d{8}-\d{8}$` (billing-period pattern), as used by
`re.match` in `cur_forwarder.py` and `BILLING_PERIOD_RE.fullmatch` in
`bootstrap_partitions.py`. -/
def matchBillingPeriod (s : String) : Bool :=
  let l := s.data
  l.length == 17 && (l.take 8).all Char.isDigit && l[8]? == some '-' &&
    (l.drop 9).all Char.isDigit

/-- One entry of `PREFIX_MAPPING`: the per-source-bucket prefix rule.  The
Python dict keys `source_prefix` / `destination_prefix` are rendered as the
fields `source_pfx` / `destination_pfx`. -/
structure PrefixRule where
  source_pfx : String
  destination_pfx : String
deriving DecidableEq

/-- Embedding of `calculate_destination_key` (cur_forwarder.py lines
147-162).  Note that the stripping branch requires the configured source
prefix to be non-empty (Python truthiness of `source_prefix` in
`if source_prefix and source_key.startswith(source_prefix)`). -/
def calculate_destination_key (source_key : String) (rule : PrefixRule) : String :=
  let relative_key :=
    if rule.source_pfx != "" && pyStartsWith source_key rule.source_pfx then
      pyLstrip '/' (pyDrop source_key rule.source_pfx.length)
    else
      source_key
  if rule.destination_pfx != "" then
    pyRstrip '/' rule.destination_pfx ++ "/" ++ relative_key
  else
    relative_key

/-- The second-to-last slash-separated segment of a key (Python
`key.split('/')[-2]`), defaulting to `""` when fewer than two segments. -/
def penultimateSegment (key : String) : String :=
  ((pySplitOn '/' key).reverse)[1]?.getD ""

/-- Embedding of `is_assembly_manifest` (cur_forwarder.py lines 242-254). -/
def is_assembly_manifest (key : String) : Bool :=
  if !(pyEndsWith key "Manifest.json") then false
  else
    let parts := pySplitOn '/' key
    if parts.length < 3 then false
    else matchAssemblyId ((parts.reverse)[1]?.getD "")

/-- Embedding of `is_assembly_data_file` (cur_forwarder.py lines 257-264). -/
def is_assembly_data_file (key : String) : Bool :=
  if !(pyEndsWith key ".csv.gz") then false
  else
    let parts := pySplitOn '/' key
    if parts.length < 3 then false
    else matchAssemblyId ((parts.reverse)[1]?.getD "")

/-- The process configuration loaded from the environment at start
(`DESTINATION_BUCKET`, `PREFIX_MAPPING`, `GLUE_DATABASE`, `TABLE_MAPPING`);
the two JSON dict mappings are association lists with the dict's insertion
order. -/
structure Config where
  destination_bucket : String
  prefix_mapping : List (String × PrefixRule)
  glue_database : String
  table_mapping : List (String × String)

/-- Embedding of `resolve_table_name` (cur_forwarder.py lines 367-376):
first entry of `TABLE_MAPPING` (in declared order) whose prefix starts the
key wins. -/
def resolve_table_name (cfg : Config) (key : String) : Option String :=
  (cfg.table_mapping.find? (fun pr => pyStartsWith key pr.1)).map Prod.snd

/-- Embedding of the billing-period / assembly-folder parsing step of
`update_athena_partition` (cur_forwarder.py lines 296-310): scan the
segments for the first billing-period match, require a following segment,
and return the billing period together with the partition path (the join of
the segments up to and including the one after the billing period). -/
def parseBillingAssembly (key : String) : Option (String × String) :=
  let parts := pySplitOn '/' key
  match parts.findIdx? matchBillingPeriod with
  | none => none
  | some i =>
    if i + 1 < parts.length then
      some ((parts[i]?.getD ""), joinSlash (parts.take (i + 2)))
    else
      none

/-- A botocore `ClientError`, identified by its error code
(`e.response['Error']['Code']`). -/
structure ClientError where
  code : String
deriving DecidableEq

/-- A parsed CUR manifest document: the `reportKeys` field listing the data
files of its assembly. -/
structure Manifest where
  reportKeys : List String
deriving DecidableEq

/-- A Glue table storage descriptor: the `Location` field, plus the rest of
the opaque blob, which is reused verbatim. -/
structure StorageDescriptor where
  location : String
  rest : String
deriving DecidableEq

/-- The `PartitionInput` sent to Glue: partition values plus a storage
descriptor. -/
structure PartitionInput where
  values : List String
  storageDescriptor : StorageDescriptor
deriving DecidableEq

/-- Mutating service calls performed by an operation, recorded as a trace:
`s3.copy_object`, `glue.update_partition` and `glue.create_partition`
attempts (recorded whether or not the call succeeds). -/
inductive SvcAction where
  | copyObj (source_bucket source_key dest_bucket dest_key : String)
  | glueUpdate (database table billing_period : String)
  | glueCreate (database table billing_period : String)
deriving DecidableEq

/-- Oracle environment for the AWS service calls.  Read-only probes return
their responses; `list_objects` takes bucket, prefix and `MaxKeys`, and
returns the keys of the response `Contents`. -/
structure Env where
  head_object : String → String → Except ClientError Unit
  get_object : String → String → Except ClientError Manifest
  copy_result : String → String → String → String → Except ClientError Unit
  list_objects : String → String → Nat → List String
  get_table : String → String → Except ClientError StorageDescriptor
  update_partition : String → String → String → PartitionInput → Except ClientError Unit
  create_partition : String → String → PartitionInput → Except ClientError Unit

/-- Whether an `Except` result is a success. -/
def isOkB {ε α : Type} : Except ε α → Bool
  | Except.ok _ => true
  | Except.error _ => false

/-- Embedding of `copy_object` (cur_forwarder.py lines 165-182): the copy
attempt is recorded in the trace; a `ClientError` from the service is
re-raised. -/
def copy_object (env : Env) (source_bucket source_key dest_bucket dest_key : String) :
    Except ClientError Unit × List SvcAction :=
  (env.copy_result source_bucket source_key dest_bucket dest_key,
   [SvcAction.copyObj source_bucket source_key dest_bucket dest_key])

/-- The loop body of `copy_manifest_data_files` (cur_forwarder.py lines
212-233): for each `reportKey`, probe the destination with `head_object`;
if present record the destination key and skip the copy; otherwise attempt
the copy, recording the destination key on success and continuing with the
remaining files on failure. -/
def copyReportKeys (env : Env) (cfg : Config) (source_bucket : String) (rule : PrefixRule) :
    List String → List String × List SvcAction
  | [] => ([], [])
  | report_key :: rest =>
    let dest_key := calculate_destination_key report_key rule
    let tail := copyReportKeys env cfg source_bucket rule rest
    match env.head_object cfg.destination_bucket dest_key with
    | Except.ok _ => (dest_key :: tail.1, tail.2)
    | Except.error _ =>
      match copy_object env source_bucket report_key cfg.destination_bucket dest_key with
      | (Except.ok _, tr) => (dest_key :: tail.1, tr ++ tail.2)
      | (Except.error _, tr) => (tail.1, tr ++ tail.2)

/-- Embedding of `copy_manifest_data_files` (cur_forwarder.py lines
189-235).  A failure to fetch or parse the manifest (both caught by the
same `except` in the source) yields an empty result; the empty-`reportKeys`
early return coincides with the loop on the empty list. -/
def copy_manifest_data_files (env : Env) (cfg : Config)
    (source_bucket manifest_source_key : String) (rule : PrefixRule) :
    List String × List SvcAction :=
  match env.get_object source_bucket manifest_source_key with
  | Except.error _ => ([], [])
  | Except.ok manifest => copyReportKeys env cfg source_bucket rule manifest.reportKeys

/-- Why `update_athena_partition` returned without repointing. -/
inductive SkipReason where
  | noTableMapping
  | noBillingPeriod
  | noDataFiles
deriving DecidableEq

/-- Observable outcome of `update_athena_partition`: either an early return
(no table mapping / unparsable billing period / no data files in the
assembly folder), or a successful update or create of the partition. -/
inductive UpdateOutcome where
  | skipped (reason : SkipReason)
  | updated (table billing_period location : String)
  | created (table billing_period location : String)
deriving DecidableEq

/-- Embedding of `update_athena_partition` (cur_forwarder.py lines
280-364): resolve the table, parse the billing period and partition path,
list the assembly folder at the destination (`MaxKeys=20`) and return
without any Glue call unless some listed key ends in `.csv.gz`; then fetch
the table storage descriptor, substitute the location, try
`update_partition`, and fall back to `create_partition` exactly on the
`EntityNotFoundException` error code, re-raising every other error. -/
def update_athena_partition (env : Env) (cfg : Config) (bucket manifest_key : String) :
    Except ClientError UpdateOutcome × List SvcAction :=
  match resolve_table_name cfg manifest_key with
  | none => (Except.ok (UpdateOutcome.skipped SkipReason.noTableMapping), [])
  | some table_name =>
    match parseBillingAssembly manifest_key with
    | none => (Except.ok (UpdateOutcome.skipped SkipReason.noBillingPeriod), [])
    | some (billing_period, partition_path) =>
      let partition_location := "s3://" ++ bucket ++ "/" ++ partition_path ++ "/"
      let assembly_pfx := partition_path ++ "/"
      let data_files :=
        (env.list_objects bucket assembly_pfx 20).filter (fun k => pyEndsWith k ".csv.gz")
      if data_files.isEmpty then
        (Except.ok (UpdateOutcome.skipped SkipReason.noDataFiles), [])
      else
        match env.get_table cfg.glue_database table_name with
        | Except.error e => (Except.error e, [])
        | Except.ok sd =>
          let pin : PartitionInput :=
            PartitionInput.mk [billing_period] (StorageDescriptor.mk partition_location sd.rest)
          match env.update_partition cfg.glue_database table_name billing_period pin with
          | Except.ok _ =>
            (Except.ok (UpdateOutcome.updated table_name billing_period partition_location),
             [SvcAction.glueUpdate cfg.glue_database table_name billing_period])
          | Except.error e =>
            if e.code == "EntityNotFoundException" then
              match env.create_partition cfg.glue_database table_name pin with
              | Except.ok _ =>
                (Except.ok (UpdateOutcome.created table_name billing_period partition_location),
                 [SvcAction.glueUpdate cfg.glue_database table_name billing_period,
                  SvcAction.glueCreate cfg.glue_database table_name billing_period])
              | Except.error e2 =>
                (Except.error e2,
                 [SvcAction.glueUpdate cfg.glue_database table_name billing_period,
                  SvcAction.glueCreate cfg.glue_database table_name billing_period])
            else
              (Except.error e, [SvcAction.glueUpdate cfg.glue_database table_name billing_period])

/-- One S3 event record: source bucket name and (already URL-decoded)
object key. -/
structure S3Record where
  bucket : String
  key : String
deriving DecidableEq

/-- The per-record result dict built by `process_record`; the
`copied_data_files` count is present exactly when the manifest expansion
returned a non-empty list (Python truthiness of `copied_data_files`). -/
structure ResultEntry where
  source : String
  destination : String
  copied_data_files : Option Nat
deriving DecidableEq

/-- Render an `s3://bucket/key` URI as in the result dict. -/
def s3Uri (bucket key : String) : String :=
  "s3://" ++ bucket ++ "/" ++ key

/-- `PREFIX_MAPPING.get(source_bucket, {})` with the empty-prefixes default
(cur_forwarder.py lines 99-102). -/
def prefixRuleFor (cfg : Config) (bucket : String) : PrefixRule :=
  ((cfg.prefix_mapping.find? (fun pr => pr.1 == bucket)).map Prod.snd).getD
    (PrefixRule.mk "" "")

/-- The best-effort partition-update step of `process_record`
(cur_forwarder.py lines 124-136): only when `GLUE_DATABASE` is configured
and the destination key classifies as an assembly manifest or assembly data
file is `update_athena_partition` attempted; its outcome (success or error)
is swallowed, only its service-call trace remains observable. -/
def partitionStep (env : Env) (cfg : Config) (destination_key : String) : List SvcAction :=
  if cfg.glue_database != "" then
    if is_assembly_manifest destination_key || is_assembly_data_file destination_key then
      (update_athena_partition env cfg cfg.destination_bucket destination_key).2
    else []
  else []

/-- Embedding of `process_record` (cur_forwarder.py lines 91-144): map the
key, branch on `is_assembly_manifest` of the destination key (manifest:
expand its data files, never copy the manifest itself; otherwise: plain
copy, re-raising a copy failure), then best-effort partition update. -/
def process_record (env : Env) (cfg : Config) (record : S3Record) :
    Except ClientError ResultEntry × List SvcAction :=
  let rule := prefixRuleFor cfg record.bucket
  let destination_key := calculate_destination_key record.key rule
  if is_assembly_manifest destination_key then
    let expanded := copy_manifest_data_files env cfg record.bucket record.key rule
    let ptr := partitionStep env cfg destination_key
    (Except.ok
      (ResultEntry.mk (s3Uri record.bucket record.key)
        (s3Uri cfg.destination_bucket destination_key)
        (if expanded.1.isEmpty then none else some expanded.1.length)),
     expanded.2 ++ ptr)
  else
    match copy_object env record.bucket record.key cfg.destination_bucket destination_key with
    | (Except.error e, tr) => (Except.error e, tr)
    | (Except.ok _, tr) =>
      let ptr := partitionStep env cfg destination_key
      (Except.ok
        (ResultEntry.mk (s3Uri record.bucket record.key)
          (s3Uri cfg.destination_bucket destination_key) none),
       tr ++ ptr)

/-- One element of the event's `Records` list: either a direct S3 record or
an SNS envelope whose `Message` contains a list of inner S3 records. -/
inductive EventRecord where
  | direct (record : S3Record)
  | sns (records : List S3Record)

/-- The inner loop of the handler for an SNS envelope (cur_forwarder.py
lines 62-66): process the inner records in order, appending each result as
it is produced; the first failure raises out of the inner loop (aborting
the remaining inner records) and is returned as the envelope's error. -/
def processSnsRecords (env : Env) (cfg : Config) :
    List S3Record → List ResultEntry × Option ClientError
  | [] => ([], none)
  | r :: rest =>
    match (process_record env cfg r).1 with
    | Except.error e => ([], some e)
    | Except.ok entry =>
      let tail := processSnsRecords env cfg rest
      (entry :: tail.1, tail.2)

/-- The per-top-level-record step of the handler loop (cur_forwarder.py
lines 57-75): the `try` covers one whole `Records` element, so an SNS
envelope contributes its successfully processed inner results plus at most
one error, and a direct record contributes one result or one error. -/
def handlerStep (env : Env) (cfg : Config) (acc : List ResultEntry × List ClientError) :
    EventRecord → List ResultEntry × List ClientError
  | EventRecord.direct r =>
    match (process_record env cfg r).1 with
    | Except.ok entry => (acc.1 ++ [entry], acc.2)
    | Except.error e => (acc.1, acc.2 ++ [e])
  | EventRecord.sns rs =>
    let inner := processSnsRecords env cfg rs
    match inner.2 with
    | none => (acc.1 ++ inner.1, acc.2)
    | some e => (acc.1 ++ inner.1, acc.2 ++ [e])

/-- The `processed_files` / `errors` accumulation over the whole `Records`
list. -/
def handlerOutcomes (env : Env) (cfg : Config) (records : List EventRecord) :
    List ResultEntry × List ClientError :=
  records.foldl (handlerStep env cfg) ([], [])

/-- The handler's response dict; `error_details` is the (possibly empty)
error list. -/
structure HandlerResponse where
  statusCode : Nat
  processed : Nat
  errors : Nat
  files : List ResultEntry
  error_details : List ClientError
deriving DecidableEq

/-- Embedding of `handler` (cur_forwarder.py lines 46-88): missing
`DESTINATION_BUCKET` raises before any record is processed; otherwise the
records are folded and the response reports status 200 (no errors) or 207,
the processed count, the errored count and the per-item results. -/
def handler (env : Env) (cfg : Config) (records : List EventRecord) :
    Except String HandlerResponse :=
  if cfg.destination_bucket == "" then
    Except.error "DESTINATION_BUCKET environment variable is required"
  else
    let oc := handlerOutcomes env cfg records
    Except.ok
      (HandlerResponse.mk (if oc.2.isEmpty then 200 else 207) oc.1.length oc.2.length oc.1 oc.2)

/-- Classification of one listed key by the scanning loop of
`find_partitions` (bootstrap_partitions.py lines 68-89): the first
billing-period segment decides; if the following segment is an assembly id
the key contributes a versioned-CUR entry (whatever its file suffix); else
the key contributes a flat-CUR entry only when it ends in `.csv.gz`;
otherwise nothing is recorded. -/
inductive BootKeyClass where
  | versionedKey (billing_period assembly_id assembly_path : String)
  | flatKey (billing_period period_path : String)
  | neither
deriving DecidableEq

/-- The inner `for i, part in enumerate(parts)` loop of `find_partitions`:
`before` accumulates the segments already passed over, so that the joined
paths match `"/".join(parts[:i+1])` and `"/".join(parts[:i+2])`. -/
def scanParts (key : String) (before : List String) : List String → BootKeyClass
  | [] => BootKeyClass.neither
  | part :: rest =>
    if matchBillingPeriod part then
      match rest with
      | next :: _ =>
        if matchAssemblyId next then
          BootKeyClass.versionedKey part next (joinSlash (before ++ [part, next]))
        else if pyEndsWith key ".csv.gz" then
          BootKeyClass.flatKey part (joinSlash (before ++ [part]))
        else BootKeyClass.neither
      | [] =>
        if pyEndsWith key ".csv.gz" then
          BootKeyClass.flatKey part (joinSlash (before ++ [part]))
        else BootKeyClass.neither
    else scanParts key (before ++ [part]) rest

/-- Classify one listed key (split on `/`, scan for the first
billing-period segment). -/
def classifyBootKey (key : String) : BootKeyClass :=
  scanParts key [] (pySplitOn '/' key)

/-- The `versioned` dict of `find_partitions` at a given billing period:
the `(assembly_id, assembly_path)` pairs appended in listing order. -/
def bootVersioned (keys : List String) (period : String) : List (String × String) :=
  keys.foldl
    (fun acc k =>
      match classifyBootKey k with
      | BootKeyClass.versionedKey bp a path =>
        if bp == period then acc ++ [(a, path)] else acc
      | _ => acc)
    []

/-- The `flat` dict of `find_partitions` at a given billing period: the
last assignment in listing order wins. -/
def bootFlat (keys : List String) (period : String) : Option String :=
  keys.foldl
    (fun acc k =>
      match classifyBootKey k with
      | BootKeyClass.flatKey bp path => if bp == period then some path else acc
      | _ => acc)
    none

/-- The comparison used by `sorted(versioned[period], key=lambda x: x[0])`:
ascending lexicographic order on the assembly id. -/
def assemblyLe (x y : String × String) : Bool :=
  decide (x.1 ≤ y.1)

/-- Embedding of the result map of `find_partitions`
(bootstrap_partitions.py lines 54-102), viewed as a lookup per billing
period over the flattened bucket listing `keys`: versioned entries are
preferred (take the last entry of the stable ascending sort by assembly
id), with the flat entry as fallback, labelled `"flat"`. -/
def find_partitions (keys : List String) (period : String) : Option (String × String) :=
  let assemblies := bootVersioned keys period
  if assemblies.isEmpty then
    match bootFlat keys period with
    | some path => some ("flat", path)
    | none => none
  else
    some ((assemblies.mergeSort assemblyLe).getLastD ("", ""))

/-- Embedding of `create_or_update_partition` (bootstrap_partitions.py
lines 105-130): fetch the table storage descriptor, substitute the
location, try `update_partition`, fall back to `create_partition` exactly
on `EntityNotFoundException`. -/
def create_or_update_partition (env : Env) (glue_database table_name billing_period location : String) :
    Except ClientError String × List SvcAction :=
  match env.get_table glue_database table_name with
  | Except.error e => (Except.error e, [])
  | Except.ok sd =>
    let pin : PartitionInput :=
      PartitionInput.mk [billing_period] (StorageDescriptor.mk location sd.rest)
    match env.update_partition glue_database table_name billing_period pin with
    | Except.ok _ =>
      (Except.ok "updated", [SvcAction.glueUpdate glue_database table_name billing_period])
    | Except.error e =>
      if e.code == "EntityNotFoundException" then
        match env.create_partition glue_database table_name pin with
        | Except.ok _ =>
          (Except.ok "created",
           [SvcAction.glueUpdate glue_database table_name billing_period,
            SvcAction.glueCreate glue_database table_name billing_period])
        | Except.error e2 =>
          (Except.error e2,
           [SvcAction.glueUpdate glue_database table_name billing_period,
            SvcAction.glueCreate glue_database table_name billing_period])
      else
        (Except.error e, [SvcAction.glueUpdate glue_database table_name billing_period])

/-- Whether an `UpdateOutcome` actually wrote (updated or created) the
partition, as opposed to an early return. -/
def isRepoint : UpdateOutcome → Bool
  | UpdateOutcome.skipped _ => false
  | UpdateOutcome.updated _ _ _ => true
  | UpdateOutcome.created _ _ _ => true

/-- The destination key `process_record` computes for a record. -/
def destKeyOf (cfg : Config) (record : S3Record) : String :=
  calculate_destination_key record.key (prefixRuleFor cfg record.bucket)

/-- The partition location string `s3://bucket/partition_path/`. -/
def partitionLocation (bucket partition_path : String) : String :=
  "s3://" ++ bucket ++ "/" ++ partition_path ++ "/"

/-- The `PartitionInput` that `update_athena_partition` sends to Glue: the
table's storage descriptor with the location substituted. -/
def partitionInputFor (bucket partition_path billing_period : String)
    (sd : StorageDescriptor) : PartitionInput :=
  PartitionInput.mk [billing_period]
    (StorageDescriptor.mk (partitionLocation bucket partition_path) sd.rest)

/-- Whether the per-file step of the manifest expansion records a report
key: its destination either answers the `head_object` probe or the copy
succeeds. -/
def reportKeySucceeds (env : Env) (cfg : Config) (source_bucket : String) (rule : PrefixRule)
    (report_key : String) : Bool :=
  isOkB (env.head_object cfg.destination_bucket (calculate_destination_key report_key rule)) ||
    isOkB (env.copy_result source_bucket report_key cfg.destination_bucket
      (calculate_destination_key report_key rule))

/-- Whether a character list begins with the separator `/`. -/
def leadSlash : List Char → Bool
  | [] => false
  | c :: _ => c == '/'

/-- Whether a character list contains the doubled separator `//`. -/
def hasDD : List Char → Bool
  | [] => false
  | [_] => false
  | a :: b :: rest => (a == '/' && b == '/') || hasDD (b :: rest)

/-- Modelled from the claim (C6 wording): the relative key is stripped
whenever the key starts with the source prefix, including when the source
prefix is the empty string. -/
def relativeKeyClaimed (source_key : String) (rule : PrefixRule) : String :=
  if pyStartsWith source_key rule.source_pfx then
    pyLstrip '/' (pyDrop source_key rule.source_pfx.length)
  else
    source_key

/-- The destination key under the claimed (C6) relative-key rule. -/
def calculate_destination_key_claimed (source_key : String) (rule : PrefixRule) : String :=
  if rule.destination_pfx != "" then
    pyRstrip '/' rule.destination_pfx ++ "/" ++ relativeKeyClaimed source_key rule
  else
    relativeKeyClaimed source_key rule

/-- Amended relative-key rule: stripping happens only when the source
prefix is non-empty and the key starts with it; with an empty source prefix
the key is used unchanged (no leading-separator stripping). -/
def relativeKeyAmended (source_key : String) (rule : PrefixRule) : String :=
  if rule.source_pfx != "" && pyStartsWith source_key rule.source_pfx then
    pyLstrip '/' (pyDrop source_key rule.source_pfx.length)
  else
    source_key

/-- The destination key under the amended relative-key rule. -/
def calculate_destination_key_amended (source_key : String) (rule : PrefixRule) : String :=
  if rule.destination_pfx != "" then
    pyRstrip '/' rule.destination_pfx ++ "/" ++ relativeKeyAmended source_key rule
  else
    relativeKeyAmended source_key rule

/-- A service error used by the concrete test environments. -/
def err500 : ClientError := ClientError.mk "ServiceFailure"

/-- Configuration with only a destination bucket (no Glue database, so the
partition step is disabled), used by the concrete batch scenarios. -/
def cfgDst : Config := Config.mk "dst" [] "" []

/-- Configuration with a Glue database and a table mapping for the
`acct/` destination tree. -/
def cfgGlue : Config := Config.mk "dst" [] "db" [("acct/", "cur_acct")]

/-- The assembly manifest key used by the concrete partition scenarios. -/
def keyM : String := "acct/20240101-20240201/20240115T120000Z/r-Manifest.json"

/-- The bucket listing of the concrete bootstrap scenario: an assembly
folder holding only its manifest, no data file. -/
def keysC2 : List String := [keyM]

/-- Environment for the manifest-only-assembly scenario: `list_objects`
answers from `keysC2` by prefix, every other service call fails. -/
def envC2 : Env :=
  Env.mk (fun _ _ => Except.error err500) (fun _ _ => Except.error err500)
    (fun _ _ _ _ => Except.error err500)
    (fun _ pfx _ => keysC2.filter (fun k => pyStartsWith k pfx))
    (fun _ _ => Except.error err500) (fun _ _ _ _ => Except.error err500)
    (fun _ _ _ => Except.error err500)

/-- Environment for the batch scenario: copying the object `bad.txt`
fails with `AccessDenied`, every other copy succeeds; all probes miss. -/
def envC3 : Env :=
  Env.mk (fun _ _ => Except.error (ClientError.mk "404"))
    (fun _ _ => Except.error (ClientError.mk "NoSuchKey"))
    (fun _ source_key _ _ =>
      if source_key == "bad.txt" then Except.error (ClientError.mk "AccessDenied")
      else Except.ok ())
    (fun _ _ _ => []) (fun _ _ => Except.error err500)
    (fun _ _ _ _ => Except.error err500) (fun _ _ _ => Except.error err500)

/-- Environment for the partition create-fallback scenario: the assembly
folder holds a data file, the table fetch succeeds, `update_partition`
fails with `EntityNotFoundException` and `create_partition` succeeds. -/
def envC4 : Env :=
  Env.mk (fun _ _ => Except.error (ClientError.mk "404"))
    (fun _ _ => Except.error (ClientError.mk "NoSuchKey")) (fun _ _ _ _ => Except.ok ())
    (fun _ _ _ => ["acct/20240101-20240201/20240115T120000Z/p-1.csv.gz"])
    (fun _ _ => Except.ok (StorageDescriptor.mk "s3://dst/old/" "REST"))
    (fun _ _ _ _ => Except.error (ClientError.mk "EntityNotFoundException"))
    (fun _ _ _ => Except.ok ())

/-- Environment for the manifest-expansion partial-failure scenario: the
manifest references two data files, the destination probe always misses,
copying `k2.csv.gz` fails and copying `k1.csv.gz` succeeds. -/
def envC8 : Env :=
  Env.mk (fun _ _ => Except.error (ClientError.mk "404"))
    (fun _ _ => Except.ok (Manifest.mk ["k1.csv.gz", "k2.csv.gz"]))
    (fun _ source_key _ _ =>
      if source_key == "k2.csv.gz" then Except.error (ClientError.mk "SlowDown")
      else Except.ok ())
    (fun _ _ _ => []) (fun _ _ => Except.error err500)
    (fun _ _ _ _ => Except.error err500) (fun _ _ _ => Except.error err500)

/-- First-run environment of the idempotence scenario: probes miss, every
copy succeeds. -/
def envC9a : Env :=
  Env.mk (fun _ _ => Except.error (ClientError.mk "404"))
    (fun _ _ => Except.ok (Manifest.mk ["k1.csv.gz", "k2.csv.gz"]))
    (fun _ _ _ _ => Except.ok ()) (fun _ _ _ => []) (fun _ _ => Except.error err500)
    (fun _ _ _ _ => Except.error err500) (fun _ _ _ => Except.error err500)

/-- Second-run environment of the idempotence scenario: every probe hits
(the files are present); the copy oracle now fails, which must not matter
because no copy is attempted. -/
def envC9b : Env :=
  Env.mk (fun _ _ => Except.ok ())
    (fun _ _ => Except.ok (Manifest.mk ["k1.csv.gz", "k2.csv.gz"]))
    (fun _ _ _ _ => Except.error err500) (fun _ _ _ => []) (fun _ _ => Except.error err500)
    (fun _ _ _ _ => Except.error err500) (fun _ _ _ => Except.error err500)

/-- Environment for the destination-classification scenario: the manifest
references one data file, probes miss, copies succeed. -/
def envC10 : Env :=
  Env.mk (fun _ _ => Except.error (ClientError.mk "404"))
    (fun _ _ => Except.ok (Manifest.mk ["20240115T120000Z/f-1.csv.gz"]))
    (fun _ _ _ _ => Except.ok ()) (fun _ _ _ => []) (fun _ _ => Except.error err500)
    (fun _ _ _ _ => Except.error err500) (fun _ _ _ => Except.error err500)

/-- Configuration for the destination-classification scenario: the source
bucket's rule adds the destination tree `acct`. -/
def cfgC10 : Config := Config.mk "dst" [("src", PrefixRule.mk "" "acct")] "" []

lemma data_append (s t : String) : (s ++ t).data = s.data ++ t.data := rfl

lemma data_ne_nil (s : String) (h : s ≠ "") : s.data ≠ [] := by
  intro hc
  apply h
  cases s with
  | mk l => cases hc; rfl

lemma matchAssemblyId_false_of_billing (s : String) (h : matchBillingPeriod s = true) :
    matchAssemblyId s = false := by
  simp only [matchBillingPeriod, Bool.and_eq_true, beq_iff_eq] at h
  simp [matchAssemblyId, h.1.1.1]

/-- C5: `is_assembly_manifest key` is true iff the key ends with the
literal suffix `Manifest.json`, has at least 3 slash-separated segments,
and its second-to-last segment matches the assembly-id pattern
`^\d{8}T\d{6}Z$`; in particular it is false whenever the second-to-last
segment is a billing period (`\d{8}-\d{8}`), i.e. for a manifest placed
directly under a billing-period folder. -/
theorem is_assembly_manifest_characterization (key : String) :
    (is_assembly_manifest key = true ↔
      (pyEndsWith key "Manifest.json" = true ∧ 3 ≤ (pySplitOn '/' key).length ∧
        matchAssemblyId (penultimateSegment key) = true)) ∧
    (matchBillingPeriod (penultimateSegment key) = true → is_assembly_manifest key = false) := by
  have hpen : penultimateSegment key = ((pySplitOn '/' key).reverse)[1]?.getD "" := rfl
  constructor
  · simp only [is_assembly_manifest]
    split_ifs with h1 h2
    · simp only [Bool.not_eq_eq_eq_not, Bool.not_true] at h1
      simp [h1]
    · simp only [Bool.false_eq_true, false_iff, not_and]
      intro _ hlen
      omega
    · simp only [Bool.not_eq_eq_eq_not, Bool.not_true, Bool.not_eq_false] at h1
      rw [← hpen]
      constructor
      · intro h
        exact ⟨h1, by omega, h⟩
      · intro h
        exact h.2.2
  · intro hb
    simp only [is_assembly_manifest]
    split_ifs with h1 h2
    · rfl
    · rfl
    · rw [← hpen]
      exact matchAssemblyId_false_of_billing _ hb

/-- Witness for C5: the characterization applied to a manifest placed
directly under a billing-period folder. -/
theorem is_assembly_manifest_characterization_witness :
    is_assembly_manifest "acct/20240101-20240201/r-Manifest.json" = false :=
  (is_assembly_manifest_characterization "acct/20240101-20240201/r-Manifest.json").2 (by decide)

/-- C6 counterexample: with an empty configured source prefix the code
performs no stripping at all, while the claimed algorithm (strip whenever
the key starts with the prefix, including the empty prefix) strips the
leading separator; the two disagree on the key `/foo`. -/
theorem calculate_destination_key_empty_src_divergence :
    calculate_destination_key "/foo" (PrefixRule.mk "" "") = "/foo" ∧
    calculate_destination_key_claimed "/foo" (PrefixRule.mk "" "") = "foo" ∧
    calculate_destination_key "/foo" (PrefixRule.mk "" "") ≠
      calculate_destination_key_claimed "/foo" (PrefixRule.mk "" "") :=
  ⟨by decide, by decide, by decide⟩

/-- C6 (amended): `calculate_destination_key` follows the amended
algorithm — the relative key is the stripped key only when the source
prefix is non-empty and starts the key (with an empty source prefix the key
is used unchanged), and the destination prefix (trailing separator
stripped) is joined with a single separator, the relative key being
returned unchanged when the destination prefix is empty. -/
theorem calculate_destination_key_algorithm (source_key : String) (rule : PrefixRule) :
    calculate_destination_key source_key rule =
        calculate_destination_key_amended source_key rule ∧
    (rule.source_pfx = "" → relativeKeyAmended source_key rule = source_key) ∧
    (rule.destination_pfx = "" →
      calculate_destination_key source_key rule = relativeKeyAmended source_key rule) ∧
    (rule.destination_pfx ≠ "" →
      calculate_destination_key source_key rule =
        pyRstrip '/' rule.destination_pfx ++ "/" ++ relativeKeyAmended source_key rule) := by
  obtain ⟨sp, dp⟩ := rule
  refine ⟨rfl, ?_, ?_, ?_⟩
  · intro h
    cases h
    simp [relativeKeyAmended]
  · intro h
    cases h
    simp [calculate_destination_key, relativeKeyAmended]
  · intro h
    have hb : (dp != "") = true := by simpa using h
    simp only [calculate_destination_key, relativeKeyAmended, hb, if_true]

/-- Witness for C6 (amended) at the key `x/y` with an empty source prefix
and destination prefix `d/`. -/
theorem calculate_destination_key_algorithm_witness :
    relativeKeyAmended "x/y" (PrefixRule.mk "" "d/") = "x/y" ∧
    calculate_destination_key "x/y" (PrefixRule.mk "" "d/") =
      pyRstrip '/' "d/" ++ "/" ++ relativeKeyAmended "x/y" (PrefixRule.mk "" "d/") :=
  ⟨(calculate_destination_key_algorithm "x/y" (PrefixRule.mk "" "d/")).2.1 rfl,
   (calculate_destination_key_algorithm "x/y" (PrefixRule.mk "" "d/")).2.2.2 (by decide)⟩

/-- C7 counterexample: a source key that itself begins with the separator
flows through the mapper unchanged (empty rule) or joins into a doubled
separator (non-empty destination prefix), so the unconditional claim is
false. -/
theorem destination_key_separator_claim_false :
    leadSlash (calculate_destination_key "/foo" (PrefixRule.mk "" "")).data = true ∧
    hasDD (calculate_destination_key "/foo" (PrefixRule.mk "" "d")).data = true :=
  ⟨by decide, by decide⟩

lemma hasDD_cons_cons (x y : Char) (t : List Char) :
    hasDD (x :: y :: t) = ((x == '/' && y == '/') || hasDD (y :: t)) := rfl

lemma hasDD_cons_of_hasDD (x : Char) (l : List Char) (h : hasDD l = true) :
    hasDD (x :: l) = true := by
  cases l with
  | nil => simp [hasDD] at h
  | cons y t =>
    rw [hasDD_cons_cons]
    simp [h]

lemma hasDD_append_left (b : List Char) :
    ∀ (a : List Char), hasDD a = true → hasDD (a ++ b) = true := by
  intro a
  induction a with
  | nil => intro h; simp [hasDD] at h
  | cons x xs ih =>
    intro h
    cases xs with
    | nil => simp [hasDD] at h
    | cons y t =>
      rw [hasDD_cons_cons] at h
      rw [List.cons_append, List.cons_append, hasDD_cons_cons]
      rw [Bool.or_eq_true] at h
      rcases h with h1 | h2
      · simp [h1]
      · have h3 := ih h2
        rw [List.cons_append] at h3
        simp [h3]

lemma hasDD_append_right (a b : List Char) (h : hasDD b = true) : hasDD (a ++ b) = true := by
  induction a with
  | nil => simpa using h
  | cons x xs ih =>
    rw [List.cons_append]
    exact hasDD_cons_of_hasDD _ _ ih

lemma hasDD_append_split (a b : List Char) (h : hasDD (a ++ b) = false) :
    hasDD a = false ∧ hasDD b = false := by
  constructor
  · cases ha : hasDD a with
    | false => rfl
    | true => simp [hasDD_append_left b a ha] at h
  · cases hb : hasDD b with
    | false => rfl
    | true => simp [hasDD_append_right a b hb] at h

lemma hasDD_of_pfx (l' l : List Char) (hp : l' <+: l) (h : hasDD l = false) :
    hasDD l' = false := by
  obtain ⟨t, rfl⟩ := hp
  exact (hasDD_append_split l' t h).1

lemma hasDD_of_suffix (l' l : List Char) (hs : l' <:+ l) (h : hasDD l = false) :
    hasDD l' = false := by
  obtain ⟨t, rfl⟩ := hs
  exact (hasDD_append_split t l' h).2

lemma leadSlash_dropWhile_slash (l : List Char) :
    leadSlash (l.dropWhile (fun x => x == '/')) = false := by
  induction l with
  | nil => rfl
  | cons x xs ih =>
    rw [List.dropWhile_cons]
    by_cases h : (x == '/') = true
    · simp [h, ih]
    · simp only [h, if_false]
      simpa [leadSlash] using h

lemma head?_ne_slash_of_leadSlash (l : List Char) (h : leadSlash l = false) :
    l.head? ≠ some '/' := by
  cases l with
  | nil => simp
  | cons c t =>
    simp only [leadSlash] at h
    simp only [List.head?_cons, ne_eq, Option.some.injEq]
    intro hc
    simp [hc] at h

lemma leadSlash_append (a b : List Char) (ha : a ≠ []) : leadSlash (a ++ b) = leadSlash a := by
  cases a with
  | nil => exact absurd rfl ha
  | cons c t => rfl

lemma leadSlash_of_pfx (l' l : List Char) (hp : l' <+: l) (h : leadSlash l = false) :
    leadSlash l' = false := by
  obtain ⟨t, rfl⟩ := hp
  cases l' with
  | nil => rfl
  | cons c u =>
    rw [leadSlash_append (c :: u) t (by simp)] at h
    exact h

lemma pyRstrip_data (s : String) :
    (pyRstrip '/' s).data = (s.data.reverse.dropWhile (fun x => x == '/')).reverse := rfl

lemma pyRstrip_pfx (s : String) : (pyRstrip '/' s).data <+: s.data := by
  rw [pyRstrip_data]
  have h1 : s.data.reverse.dropWhile (fun x => x == '/') <:+ s.data.reverse :=
    List.dropWhile_suffix _
  have h2 := List.reverse_prefix.2 h1
  rwa [List.reverse_reverse] at h2

lemma pyRstrip_getLast? (s : String) : ((pyRstrip '/' s).data).getLast? ≠ some '/' := by
  rw [pyRstrip_data, List.getLast?_reverse]
  exact head?_ne_slash_of_leadSlash _ (leadSlash_dropWhile_slash _)

lemma pyRstrip_ne_nil (s : String) (hs : s.data ≠ []) (h : leadSlash s.data = false) :
    (pyRstrip '/' s).data ≠ [] := by
  rw [pyRstrip_data]
  intro hc
  have h0 : s.data.reverse.dropWhile (fun x => x == '/') = [] := by
    have h1 := congrArg List.reverse hc
    simpa using h1
  have hall := List.dropWhile_eq_nil_iff.1 h0
  cases hd : s.data with
  | nil => exact hs hd
  | cons c t =>
    have hc' : (c == '/') = true := hall c (by rw [hd]; simp)
    rw [hd] at h
    simp only [leadSlash] at h
    simp [hc'] at h

lemma hasDD_slash_cons (b : List Char) (hb1 : leadSlash b = false) (hb2 : hasDD b = false) :
    hasDD ('/' :: b) = false := by
  cases b with
  | nil => rfl
  | cons c t =>
    rw [hasDD_cons_cons]
    simp only [leadSlash] at hb1
    simp [hb1, hb2]

lemma hasDD_join (b : List Char) (hb1 : leadSlash b = false) (hb2 : hasDD b = false) :
    ∀ (a : List Char), hasDD a = false → a.getLast? ≠ some '/' →
      hasDD (a ++ '/' :: b) = false := by
  intro a
  induction a with
  | nil =>
    intro _ _
    simpa using hasDD_slash_cons b hb1 hb2
  | cons x xs ih =>
    intro ha hlast
    cases xs with
    | nil =>
      have hx : (x == '/') = false := by
        simp only [List.getLast?_singleton, ne_eq, Option.some.injEq] at hlast
        simp [hlast]
      have h0 := hasDD_slash_cons b hb1 hb2
      rw [List.cons_append, List.nil_append, hasDD_cons_cons]
      simp [hx, h0]
    | cons y t =>
      rw [hasDD_cons_cons] at ha
      rcases Bool.or_eq_false_iff.1 ha with ⟨ha1, ha2⟩
      rw [List.getLast?_cons_cons] at hlast
      have h3 := ih ha2 hlast
      rw [List.cons_append] at h3
      rw [List.cons_append, List.cons_append, hasDD_cons_cons]
      simp [ha1, h3]

/-- C7 (amended): when neither the source key nor the destination prefix
begins with the separator or contains a doubled separator, the destination
key produced by `calculate_destination_key` never begins with `/` and
never contains `//`. -/
theorem destination_key_separators (source_key : String) (rule : PrefixRule)
    (hk1 : leadSlash source_key.data = false) (hk2 : hasDD source_key.data = false)
    (hd1 : leadSlash rule.destination_pfx.data = false)
    (hd2 : hasDD rule.destination_pfx.data = false) :
    leadSlash (calculate_destination_key source_key rule).data = false ∧
    hasDD (calculate_destination_key source_key rule).data = false := by
  obtain ⟨sp, dp⟩ := rule
  simp only at hd1 hd2
  have hA1 : leadSlash (pyLstrip '/' (pyDrop source_key sp.length)).data = false :=
    leadSlash_dropWhile_slash _
  have hA2 : hasDD (pyLstrip '/' (pyDrop source_key sp.length)).data = false := by
    have hdrop : hasDD (source_key.data.drop sp.length) = false :=
      hasDD_of_suffix _ _ (List.drop_suffix _ _) hk2
    exact hasDD_of_suffix _ _ (List.dropWhile_suffix _) hdrop
  have key : ∀ (r : String), leadSlash r.data = false → hasDD r.data = false →
      leadSlash (if (dp != "") = true then pyRstrip '/' dp ++ "/" ++ r else r).data = false ∧
      hasDD (if (dp != "") = true then pyRstrip '/' dp ++ "/" ++ r else r).data = false := by
    intro r hr1 hr2
    split_ifs with hdp
    · have hdpne : dp.data ≠ [] := data_ne_nil dp (by simpa using hdp)
      have hrn := pyRstrip_ne_nil dp hdpne hd1
      have hrp := pyRstrip_pfx dp
      have hjoin : (pyRstrip '/' dp ++ "/" ++ r).data =
          (pyRstrip '/' dp).data ++ '/' :: r.data := by
        rw [data_append, data_append, List.append_assoc]
        rfl
      rw [hjoin]
      refine ⟨?_, ?_⟩
      · rw [leadSlash_append _ _ hrn]
        exact leadSlash_of_pfx _ _ hrp hd1
      · exact hasDD_join _ hr1 hr2 _ (hasDD_of_pfx _ _ hrp hd2) (pyRstrip_getLast? dp)
    · exact ⟨hr1, hr2⟩
  simp only [calculate_destination_key]
  refine key _ ?_ ?_
  · split_ifs with h
    · exact hA1
    · exact hk1
  · split_ifs with h
    · exact hA2
    · exact hk2

/-- Witness for C7 (amended) at a concrete key and rule. -/
theorem destination_key_separators_witness :
    leadSlash (calculate_destination_key "a/b.csv.gz" (PrefixRule.mk "a" "out/")).data = false ∧
    hasDD (calculate_destination_key "a/b.csv.gz" (PrefixRule.mk "a" "out/")).data = false :=
  destination_key_separators "a/b.csv.gz" (PrefixRule.mk "a" "out/")
    (by decide) (by decide) (by decide) (by decide)

/-- C1: the partition is updated or created only when the bounded listing
of the assembly folder at the destination contains at least one key ending
in `.csv.gz`; when the listing contains no such key, `update_athena_partition`
returns a skip outcome with an empty service-call trace, i.e. without
touching the partition. -/
theorem update_athena_partition_gate (env : Env) (cfg : Config) (bucket key : String) :
    (∀ (table_name billing_period partition_path : String),
      resolve_table_name cfg key = some table_name →
      parseBillingAssembly key = some (billing_period, partition_path) →
      (∀ k ∈ env.list_objects bucket (partition_path ++ "/") 20,
        pyEndsWith k ".csv.gz" = false) →
      update_athena_partition env cfg bucket key =
        (Except.ok (UpdateOutcome.skipped SkipReason.noDataFiles), [])) ∧
    (∀ out, (update_athena_partition env cfg bucket key).1 = Except.ok out →
      isRepoint out = true →
      ∃ billing_period partition_path,
        parseBillingAssembly key = some (billing_period, partition_path) ∧
        ∃ k ∈ env.list_objects bucket (partition_path ++ "/") 20,
          pyEndsWith k ".csv.gz" = true) := by
  constructor
  · intro table_name billing_period partition_path h1 h2 h3
    have hfil : (env.list_objects bucket (partition_path ++ "/") 20).filter
        (fun k => pyEndsWith k ".csv.gz") = [] := by
      rw [List.filter_eq_nil_iff]
      intro k hk
      simp [h3 k hk]
    simp only [update_athena_partition, h1, h2]
    simp [hfil]
  · intro out hout hrep
    simp only [update_athena_partition] at hout
    cases hres : resolve_table_name cfg key with
    | none =>
      rw [hres] at hout
      simp at hout
      rw [← hout] at hrep
      simp [isRepoint] at hrep
    | some table_name =>
      rw [hres] at hout
      cases hpar : parseBillingAssembly key with
      | none =>
        rw [hpar] at hout
        simp at hout
        rw [← hout] at hrep
        simp [isRepoint] at hrep
      | some pr =>
        obtain ⟨billing_period, partition_path⟩ := pr
        rw [hpar] at hout
        by_cases hemp : ((env.list_objects bucket (partition_path ++ "/") 20).filter
            (fun k => pyEndsWith k ".csv.gz")).isEmpty = true
        · simp only [hemp, if_true] at hout
          simp at hout
          rw [← hout] at hrep
          simp [isRepoint] at hrep
        · refine ⟨billing_period, partition_path, rfl, ?_⟩
          have hne : (env.list_objects bucket (partition_path ++ "/") 20).filter
              (fun k => pyEndsWith k ".csv.gz") ≠ [] := by
            intro hc
            exact hemp (by simp [hc])
          obtain ⟨k, hk⟩ := List.exists_mem_of_ne_nil _ hne
          exact ⟨k, (List.mem_filter.1 hk).1, (List.mem_filter.1 hk).2⟩

/-- Witness for C1: the manifest-only assembly folder yields the no-data
skip with an empty trace. -/
theorem update_athena_partition_gate_witness :
    update_athena_partition envC2 cfgGlue "dst" keyM =
      (Except.ok (UpdateOutcome.skipped SkipReason.noDataFiles), []) :=
  (update_athena_partition_gate envC2 cfgGlue "dst" keyM).1 "cur_acct" "20240101-20240201"
    "acct/20240101-20240201/20240115T120000Z" (by decide) (by decide) (by decide)

/-- C4: once the completeness gate has passed, a failure to fetch the
table definition propagates; a successful `update_partition` yields the
updated outcome; an `update_partition` failure falls back to
`create_partition` exactly when its code is `EntityNotFoundException`
(whose own success or failure then decides the outcome), and any other
update error propagates.  Moreover `process_record` can fail only from the
plain-copy path — every `update_athena_partition` error is swallowed, the
item still reporting success. -/
theorem update_athena_partition_create_fallback :
    (∀ (env : Env) (cfg : Config) (bucket key table_name billing_period partition_path : String),
      resolve_table_name cfg key = some table_name →
      parseBillingAssembly key = some (billing_period, partition_path) →
      ((env.list_objects bucket (partition_path ++ "/") 20).filter
          (fun k => pyEndsWith k ".csv.gz")).isEmpty = false →
      (∀ e, env.get_table cfg.glue_database table_name = Except.error e →
        update_athena_partition env cfg bucket key = (Except.error e, [])) ∧
      (∀ sd, env.get_table cfg.glue_database table_name = Except.ok sd →
        (env.update_partition cfg.glue_database table_name billing_period
            (partitionInputFor bucket partition_path billing_period sd) = Except.ok () →
          (update_athena_partition env cfg bucket key).1 =
            Except.ok (UpdateOutcome.updated table_name billing_period
              (partitionLocation bucket partition_path))) ∧
        (∀ e, env.update_partition cfg.glue_database table_name billing_period
            (partitionInputFor bucket partition_path billing_period sd) = Except.error e →
          (e.code = "EntityNotFoundException" →
            (env.create_partition cfg.glue_database table_name
                (partitionInputFor bucket partition_path billing_period sd) = Except.ok () →
              (update_athena_partition env cfg bucket key).1 =
                Except.ok (UpdateOutcome.created table_name billing_period
                  (partitionLocation bucket partition_path))) ∧
            (∀ e2, env.create_partition cfg.glue_database table_name
                (partitionInputFor bucket partition_path billing_period sd) = Except.error e2 →
              (update_athena_partition env cfg bucket key).1 = Except.error e2)) ∧
          (e.code ≠ "EntityNotFoundException" →
            (update_athena_partition env cfg bucket key).1 = Except.error e)))) ∧
    (∀ (env : Env) (cfg : Config) (record : S3Record) (e : ClientError),
      (process_record env cfg record).1 = Except.error e →
      is_assembly_manifest (destKeyOf cfg record) = false ∧
      env.copy_result record.bucket record.key cfg.destination_bucket (destKeyOf cfg record) =
        Except.error e) := by
  constructor
  · intro env cfg bucket key table_name billing_period partition_path h1 h2 h3
    constructor
    · intro e hge
      simp [update_athena_partition, h1, h2, h3, hge]
    · intro sd hsd
      simp only [partitionInputFor, partitionLocation]
      constructor
      · intro hupd
        simp [update_athena_partition, h1, h2, h3, hsd, hupd, partitionLocation]
      · intro e hupd
        constructor
        · intro hcode
          constructor
          · intro hcr
            simp [update_athena_partition, h1, h2, h3, hsd, hupd, hcode, hcr,
              partitionLocation]
          · intro e2 hcr
            simp [update_athena_partition, h1, h2, h3, hsd, hupd, hcode, hcr]
        · intro hcode
          have hb : (e.code == "EntityNotFoundException") = false := by
            simp [hcode]
          simp [update_athena_partition, h1, h2, h3, hsd, hupd, hb]
  · intro env cfg record e herr
    simp only [process_record] at herr
    by_cases hman : is_assembly_manifest
        (calculate_destination_key record.key (prefixRuleFor cfg record.bucket)) = true
    · simp [hman] at herr
    · have hman' : is_assembly_manifest
          (calculate_destination_key record.key (prefixRuleFor cfg record.bucket)) = false := by
        simpa using hman
      simp only [hman', Bool.false_eq_true, if_false, copy_object] at herr
      cases hc : env.copy_result record.bucket record.key cfg.destination_bucket
          (calculate_destination_key record.key (prefixRuleFor cfg record.bucket)) with
      | ok u => simp [hc] at herr
      | error e3 =>
        simp only [hc] at herr
        simp only [Except.error.injEq] at herr
        exact ⟨by simpa [destKeyOf] using hman', by simp [destKeyOf, hc, herr]⟩

/-- Witness for C4: with the gate passed, a table fetch success, an
`EntityNotFoundException` from the update and a successful create, the
outcome is the created partition. -/
theorem update_athena_partition_create_fallback_witness :
    (update_athena_partition envC4 cfgGlue "dst" keyM).1 =
      Except.ok (UpdateOutcome.created "cur_acct" "20240101-20240201"
        (partitionLocation "dst" "acct/20240101-20240201/20240115T120000Z")) := by
  have h := (update_athena_partition_create_fallback.1 envC4 cfgGlue "dst" keyM "cur_acct"
      "20240101-20240201" "acct/20240101-20240201/20240115T120000Z" (by decide) (by decide)
      (by decide)).2 (StorageDescriptor.mk "s3://dst/old/" "REST") rfl
  exact ((h.2 (ClientError.mk "EntityNotFoundException") rfl).1 rfl).1 rfl

lemma copyReportKeys_spec (env : Env) (cfg : Config) (source_bucket : String)
    (rule : PrefixRule) :
    ∀ (l : List String),
      copyReportKeys env cfg source_bucket rule l =
        (l.filterMap (fun rk =>
          if reportKeySucceeds env cfg source_bucket rule rk then
            some (calculate_destination_key rk rule)
          else none),
         l.filterMap (fun rk =>
          if isOkB (env.head_object cfg.destination_bucket
              (calculate_destination_key rk rule)) then none
          else
            some (SvcAction.copyObj source_bucket rk cfg.destination_bucket
              (calculate_destination_key rk rule)))) := by
  intro l
  induction l with
  | nil => rfl
  | cons rk rest ih =>
    simp only [copyReportKeys, ih]
    cases hh : env.head_object cfg.destination_bucket (calculate_destination_key rk rule) with
    | ok u => simp [reportKeySucceeds, hh, isOkB]
    | error e =>
      cases hc : env.copy_result source_bucket rk cfg.destination_bucket
          (calculate_destination_key rk rule) with
      | ok u => simp [reportKeySucceeds, hh, hc, isOkB, copy_object]
      | error e2 => simp [reportKeySucceeds, hh, hc, isOkB, copy_object]

/-- C8: over a readable manifest, the expansion visits every report key
(one per-file failure never aborts the rest) and returns exactly the
destination keys of report keys whose destination probe or copy succeeded;
a report key for which both the probe and the copy failed contributes no
destination key. -/
theorem copy_manifest_data_files_partial_failure (env : Env) (cfg : Config)
    (source_bucket manifest_source_key : String) (rule : PrefixRule) (m : Manifest)
    (hm : env.get_object source_bucket manifest_source_key = Except.ok m) :
    (copy_manifest_data_files env cfg source_bucket manifest_source_key rule).1 =
      m.reportKeys.filterMap (fun rk =>
        if reportKeySucceeds env cfg source_bucket rule rk then
          some (calculate_destination_key rk rule)
        else none) ∧
    (∀ d, d ∈ (copy_manifest_data_files env cfg source_bucket manifest_source_key rule).1 ↔
      ∃ rk ∈ m.reportKeys, reportKeySucceeds env cfg source_bucket rule rk = true ∧
        calculate_destination_key rk rule = d) := by
  have h0 : copy_manifest_data_files env cfg source_bucket manifest_source_key rule =
      copyReportKeys env cfg source_bucket rule m.reportKeys := by
    simp [copy_manifest_data_files, hm]
  rw [h0, copyReportKeys_spec]
  refine ⟨rfl, ?_⟩
  intro d
  simp only [List.mem_filterMap]
  constructor
  · rintro ⟨rk, hrk, hsome⟩
    by_cases hs : reportKeySucceeds env cfg source_bucket rule rk = true
    · rw [if_pos hs] at hsome
      exact ⟨rk, hrk, hs, by injection hsome⟩
    · rw [if_neg hs] at hsome
      cases hsome
  · rintro ⟨rk, hrk, hs, hd⟩
    exact ⟨rk, hrk, by simp [hs, hd]⟩

/-- Witness for C8: of the two referenced files, the first copies and the
second fails; the result is exactly the first file's destination key. -/
theorem copy_manifest_partial_failure_witness :
    (copy_manifest_data_files envC8 cfgDst "src" "m.json" (PrefixRule.mk "" "")).1 =
      ["k1.csv.gz"] := by
  have h := (copy_manifest_data_files_partial_failure envC8 cfgDst "src" "m.json"
      (PrefixRule.mk "" "") (Manifest.mk ["k1.csv.gz", "k2.csv.gz"]) rfl).1
  rw [h]
  decide

/-- C9: when each referenced file already answered run one (probe or copy
succeeded) and every destination probe hits on run two, the second
expansion returns every mapped destination key with an empty service-call
trace — zero copies are attempted — and its result equals run one's. -/
theorem copy_manifest_data_files_idempotent (env env2 : Env) (cfg : Config)
    (source_bucket manifest_source_key : String) (rule : PrefixRule) (m : Manifest)
    (hm1 : env.get_object source_bucket manifest_source_key = Except.ok m)
    (hm2 : env2.get_object source_bucket manifest_source_key = Except.ok m)
    (hrun1 : ∀ rk ∈ m.reportKeys, reportKeySucceeds env cfg source_bucket rule rk = true)
    (hpresent : ∀ rk ∈ m.reportKeys,
      isOkB (env2.head_object cfg.destination_bucket
        (calculate_destination_key rk rule)) = true) :
    copy_manifest_data_files env2 cfg source_bucket manifest_source_key rule =
      (m.reportKeys.map (fun rk => calculate_destination_key rk rule), []) ∧
    (copy_manifest_data_files env2 cfg source_bucket manifest_source_key rule).1 =
      (copy_manifest_data_files env cfg source_bucket manifest_source_key rule).1 := by
  have hsucc2 : ∀ rk ∈ m.reportKeys,
      reportKeySucceeds env2 cfg source_bucket rule rk = true := by
    intro rk hrk
    simp [reportKeySucceeds, hpresent rk hrk]
  have h2 : copy_manifest_data_files env2 cfg source_bucket manifest_source_key rule =
      copyReportKeys env2 cfg source_bucket rule m.reportKeys := by
    simp [copy_manifest_data_files, hm2]
  have h1 : copy_manifest_data_files env cfg source_bucket manifest_source_key rule =
      copyReportKeys env cfg source_bucket rule m.reportKeys := by
    simp [copy_manifest_data_files, hm1]
  have hmap2 : m.reportKeys.filterMap (fun rk =>
      if reportKeySucceeds env2 cfg source_bucket rule rk then
        some (calculate_destination_key rk rule)
      else none) = m.reportKeys.map (fun rk => calculate_destination_key rk rule) := by
    rw [← List.filterMap_eq_map]
    exact List.filterMap_congr (fun rk hrk => by simp [hsucc2 rk hrk])
  have hmap1 : m.reportKeys.filterMap (fun rk =>
      if reportKeySucceeds env cfg source_bucket rule rk then
        some (calculate_destination_key rk rule)
      else none) = m.reportKeys.map (fun rk => calculate_destination_key rk rule) := by
    rw [← List.filterMap_eq_map]
    exact List.filterMap_congr (fun rk hrk => by simp [hrun1 rk hrk])
  have htr : m.reportKeys.filterMap (fun rk =>
      if isOkB (env2.head_object cfg.destination_bucket
          (calculate_destination_key rk rule)) then none
      else
        some (SvcAction.copyObj source_bucket rk cfg.destination_bucket
          (calculate_destination_key rk rule))) = [] := by
    rw [List.filterMap_eq_nil_iff]
    intro rk hrk
    simp [hpresent rk hrk]
  rw [h1, h2, copyReportKeys_spec, copyReportKeys_spec, hmap1, hmap2, htr]
  exact ⟨rfl, rfl⟩

/-- Witness for C9: on the second run every probe hits; the expansion
returns both mapped destination keys, performs no service call, and equals
the first run's result. -/
theorem copy_manifest_idempotent_witness :
    copy_manifest_data_files envC9b cfgDst "src" "m.json" (PrefixRule.mk "" "") =
      (["k1.csv.gz", "k2.csv.gz"], []) ∧
    (copy_manifest_data_files envC9b cfgDst "src" "m.json" (PrefixRule.mk "" "")).1 =
      (copy_manifest_data_files envC9a cfgDst "src" "m.json" (PrefixRule.mk "" "")).1 :=
  copy_manifest_data_files_idempotent envC9a envC9b cfgDst "src" "m.json" (PrefixRule.mk "" "")
    (Manifest.mk ["k1.csv.gz", "k2.csv.gz"]) rfl rfl (by decide) (by decide)

lemma handlerStep_shift (env : Env) (cfg : Config) (acc : List ResultEntry × List ClientError)
    (rec : EventRecord) :
    handlerStep env cfg acc rec =
      (acc.1 ++ (handlerStep env cfg ([], []) rec).1,
       acc.2 ++ (handlerStep env cfg ([], []) rec).2) := by
  cases rec with
  | direct r =>
    simp only [handlerStep]
    cases (process_record env cfg r).1 with
    | ok entry => simp
    | error e => simp
  | sns rs =>
    simp only [handlerStep]
    cases (processSnsRecords env cfg rs).2 with
    | none => simp
    | some e => simp

lemma foldl_handlerStep_shift (env : Env) (cfg : Config) :
    ∀ (l : List EventRecord) (acc : List ResultEntry × List ClientError),
      l.foldl (handlerStep env cfg) acc =
        (acc.1 ++ (handlerOutcomes env cfg l).1, acc.2 ++ (handlerOutcomes env cfg l).2) := by
  intro l
  induction l with
  | nil =>
    intro acc
    simp [handlerOutcomes]
  | cons x xs ih =>
    intro acc
    rw [List.foldl_cons, ih (handlerStep env cfg acc x), handlerStep_shift env cfg acc x]
    have hx : handlerOutcomes env cfg (x :: xs) =
        ((handlerStep env cfg ([], []) x).1 ++ (handlerOutcomes env cfg xs).1,
         (handlerStep env cfg ([], []) x).2 ++ (handlerOutcomes env cfg xs).2) := by
      simp only [handlerOutcomes, List.foldl_cons]
      rw [ih (handlerStep env cfg ([], []) x)]
      rfl
    rw [hx]
    simp [handlerOutcomes, List.append_assoc]

/-- C3 (amended): the handler's per-top-level-record outcomes compose — a
failure in one top-level record never affects the results contributed by
the records before or after it — and the response faithfully reports the
processed and errored counts; but within one SNS envelope the first inner
failure aborts the remaining inner records of that envelope, keeping the
earlier inner successes and recording a single error for the envelope. -/
theorem handler_batch_reporting (env : Env) (cfg : Config) :
    (∀ (xs ys : List EventRecord),
      (handlerOutcomes env cfg (xs ++ ys)).1 =
          (handlerOutcomes env cfg xs).1 ++ (handlerOutcomes env cfg ys).1 ∧
      (handlerOutcomes env cfg (xs ++ ys)).2 =
          (handlerOutcomes env cfg xs).2 ++ (handlerOutcomes env cfg ys).2) ∧
    (∀ (records : List EventRecord), cfg.destination_bucket ≠ "" →
      handler env cfg records = Except.ok (HandlerResponse.mk
        (if (handlerOutcomes env cfg records).2.isEmpty then 200 else 207)
        (handlerOutcomes env cfg records).1.length
        (handlerOutcomes env cfg records).2.length
        (handlerOutcomes env cfg records).1
        (handlerOutcomes env cfg records).2)) ∧
    (∀ (pre : List S3Record) (r : S3Record) (post : List S3Record) (e : ClientError),
      (∀ p ∈ pre, isOkB (process_record env cfg p).1 = true) →
      (process_record env cfg r).1 = Except.error e →
      processSnsRecords env cfg (pre ++ r :: post) =
        ((processSnsRecords env cfg pre).1, some e)) := by
  refine ⟨?_, ?_, ?_⟩
  · intro xs ys
    constructor
    · simp only [handlerOutcomes, List.foldl_append]
      rw [foldl_handlerStep_shift env cfg ys (List.foldl (handlerStep env cfg) ([], []) xs)]
      rfl
    · simp only [handlerOutcomes, List.foldl_append]
      rw [foldl_handlerStep_shift env cfg ys (List.foldl (handlerStep env cfg) ([], []) xs)]
      rfl
  · intro records hdb
    have hb : (cfg.destination_bucket == "") = false := by
      simp [hdb]
    simp [handler, hb]
  · intro pre r post e
    induction pre with
    | nil =>
      intro _ herr
      simp [processSnsRecords, herr]
    | cons p rest ih =>
      intro hok herr
      have hp : isOkB (process_record env cfg p).1 = true := hok p (by simp)
      cases hres : (process_record env cfg p).1 with
      | error e2 => rw [hres] at hp; simp [isOkB] at hp
      | ok entry =>
        have htail := ih (fun q hq => hok q (by simp [hq])) herr
        rw [List.cons_append]
        simp only [processSnsRecords, hres, htail]

/-- C3 counterexample: inside one SNS envelope, the failure of the first
inner record (`bad.txt`, copy denied) prevents the second inner record
(`good.txt`) from being processed — the batch reports zero processed and
one error — although the same record processes successfully when it is not
preceded by the failing one. -/
theorem handler_sns_failure_aborts_siblings :
    handler envC3 cfgDst
        [EventRecord.sns [S3Record.mk "src" "bad.txt", S3Record.mk "src" "good.txt"]] =
      Except.ok (HandlerResponse.mk 207 0 1 [] [ClientError.mk "AccessDenied"]) ∧
    handler envC3 cfgDst [EventRecord.sns [S3Record.mk "src" "good.txt"]] =
      Except.ok (HandlerResponse.mk 200 1 0
        [ResultEntry.mk "s3://src/good.txt" "s3://dst/good.txt" none] []) :=
  ⟨rfl, rfl⟩

/-- Witness for C3 (amended): an envelope whose middle record fails keeps
the leading success, drops the trailing record, and reports one error. -/
theorem handler_batch_reporting_witness :
    processSnsRecords envC3 cfgDst
        [S3Record.mk "src" "good.txt", S3Record.mk "src" "bad.txt",
         S3Record.mk "src" "g2.txt"] =
      ([ResultEntry.mk "s3://src/good.txt" "s3://dst/good.txt" none],
       some (ClientError.mk "AccessDenied")) := by
  have h := (handler_batch_reporting envC3 cfgDst).2.2 [S3Record.mk "src" "good.txt"]
      (S3Record.mk "src" "bad.txt") [S3Record.mk "src" "g2.txt"]
      (ClientError.mk "AccessDenied") (by decide) (by rfl)
  rw [show ([S3Record.mk "src" "good.txt"] ++ S3Record.mk "src" "bad.txt" ::
      [S3Record.mk "src" "g2.txt"]) =
      [S3Record.mk "src" "good.txt", S3Record.mk "src" "bad.txt",
       S3Record.mk "src" "g2.txt"] from rfl] at h
  rw [h]
  rfl

/-- C10: `process_record` branches on the classification of the mapped
destination key, not the raw source key: when the destination key is not
an assembly manifest the record's own object is copied (first trace
action) and no expansion count is reported, and when it is, the trace is
the manifest expansion's copies followed by the partition step and the
result reports the expansion count; in particular the two-segment source
key `20240115T120000Z/report-Manifest.json` is not itself an assembly
manifest but its destination key under the destination prefix `acct` is. -/
theorem process_record_classifies_destination :
    (∀ (env : Env) (cfg : Config) (record : S3Record),
      (is_assembly_manifest (destKeyOf cfg record) = false →
        (process_record env cfg record).2 =
          SvcAction.copyObj record.bucket record.key cfg.destination_bucket
              (destKeyOf cfg record) ::
            (if isOkB (env.copy_result record.bucket record.key cfg.destination_bucket
                (destKeyOf cfg record)) then
              partitionStep env cfg (destKeyOf cfg record)
            else [])) ∧
      (is_assembly_manifest (destKeyOf cfg record) = true →
        (process_record env cfg record).2 =
          (copy_manifest_data_files env cfg record.bucket record.key
              (prefixRuleFor cfg record.bucket)).2 ++
            partitionStep env cfg (destKeyOf cfg record) ∧
        (process_record env cfg record).1 =
          Except.ok (ResultEntry.mk (s3Uri record.bucket record.key)
            (s3Uri cfg.destination_bucket (destKeyOf cfg record))
            (if (copy_manifest_data_files env cfg record.bucket record.key
                (prefixRuleFor cfg record.bucket)).1.isEmpty then none
             else some (copy_manifest_data_files env cfg record.bucket record.key
                (prefixRuleFor cfg record.bucket)).1.length)))) ∧
    is_assembly_manifest "20240115T120000Z/report-Manifest.json" = false ∧
    is_assembly_manifest
      (calculate_destination_key "20240115T120000Z/report-Manifest.json"
        (PrefixRule.mk "" "acct")) = true := by
  refine ⟨?_, by decide, by decide⟩
  intro env cfg record
  constructor
  · intro h
    simp only [destKeyOf] at h
    simp only [process_record, h, Bool.false_eq_true, if_false, copy_object, destKeyOf]
    cases hc : env.copy_result record.bucket record.key cfg.destination_bucket
        (calculate_destination_key record.key (prefixRuleFor cfg record.bucket)) with
    | ok u => simp [isOkB, hc]
    | error e => simp [isOkB, hc]
  · intro h
    simp only [destKeyOf] at h
    simp only [process_record, h, if_true, destKeyOf]
    exact ⟨trivial, trivial⟩

/-- Witness for C10: the two-segment key wrapped to the `acct` tree takes
the manifest-expansion path. -/
theorem process_record_classifies_destination_witness :
    (process_record envC10 cfgC10
        (S3Record.mk "src" "20240115T120000Z/report-Manifest.json")).2 =
      (copy_manifest_data_files envC10 cfgC10 "src" "20240115T120000Z/report-Manifest.json"
          (prefixRuleFor cfgC10 "src")).2 ++
        partitionStep envC10 cfgC10
          (destKeyOf cfgC10 (S3Record.mk "src" "20240115T120000Z/report-Manifest.json")) :=
  ((process_record_classifies_destination.1 envC10 cfgC10
      (S3Record.mk "src" "20240115T120000Z/report-Manifest.json")).2 (by decide)).1

lemma assemblyLe_trans (a b c : String × String) (h1 : assemblyLe a b = true)
    (h2 : assemblyLe b c = true) : assemblyLe a c = true := by
  simp only [assemblyLe, decide_eq_true_eq] at h1 h2 ⊢
  exact le_trans h1 h2

lemma assemblyLe_total (a b : String × String) : (assemblyLe a b || assemblyLe b a) = true := by
  simp only [assemblyLe]
  rcases le_total a.1 b.1 with h | h
  · simp [h]
  · simp [h]

lemma pairwise_getLast? {α : Type} (R : α → α → Prop) :
    ∀ (l : List α), l.Pairwise R → ∀ a ∈ l, ∀ b, l.getLast? = some b → a = b ∨ R a b := by
  intro l
  induction l with
  | nil => intro _ a ha; simp at ha
  | cons x xs ih =>
    intro hp a ha b hb
    cases xs with
    | nil =>
      simp only [List.mem_singleton] at ha
      simp at hb
      left
      rw [ha, hb]
    | cons y t =>
      rw [List.getLast?_cons_cons] at hb
      rcases List.mem_cons.1 ha with rfl | ha2
      · right
        exact (List.pairwise_cons.1 hp).1 b (List.mem_of_getLast?_eq_some hb)
      · exact ih (List.pairwise_cons.1 hp).2 a ha2 b hb

lemma scanParts_flat :
    ∀ (parts before : List String) (key bp pp : String),
      scanParts key before parts = BootKeyClass.flatKey bp pp →
      pyEndsWith key ".csv.gz" = true := by
  intro parts
  induction parts with
  | nil =>
    intro before key bp pp h
    simp [scanParts] at h
  | cons part rest ih =>
    intro before key bp pp h
    simp only [scanParts] at h
    by_cases hb : matchBillingPeriod part = true
    · rw [if_pos hb] at h
      cases rest with
      | nil =>
        by_cases he : pyEndsWith key ".csv.gz" = true
        · exact he
        · simp [he] at h
      | cons nxt t =>
        by_cases ha : matchAssemblyId nxt = true
        · simp [ha] at h
        · by_cases he : pyEndsWith key ".csv.gz" = true
          · exact he
          · simp [ha, he] at h
    · rw [if_neg hb] at h
      exact ih (before ++ [part]) key bp pp h

lemma bootFlat_from (period : String) :
    ∀ (keys : List String) (a : Option String) (path : String),
      keys.foldl
        (fun acc k =>
          match classifyBootKey k with
          | BootKeyClass.flatKey bp p => if bp == period then some p else acc
          | _ => acc) a = some path →
      a = some path ∨
        ∃ k ∈ keys, classifyBootKey k = BootKeyClass.flatKey period path := by
  intro keys
  induction keys with
  | nil =>
    intro a path h
    left
    exact h
  | cons k rest ih =>
    intro a path h
    rw [List.foldl_cons] at h
    rcases ih _ path h with ha | ⟨k2, hk2, hc⟩
    · cases hcl : classifyBootKey k with
      | flatKey bp p =>
        rw [hcl] at ha
        dsimp only at ha
        by_cases hbp : (bp == period) = true
        · rw [if_pos hbp] at ha
          right
          refine ⟨k, by simp, ?_⟩
          rw [hcl]
          injection ha with hp2
          rw [hp2]
          congr 1
          exact (beq_iff_eq.1 hbp)
        · rw [if_neg hbp] at ha
          left
          exact ha
      | versionedKey bp aid ap =>
        rw [hcl] at ha
        left
        exact ha
      | neither =>
        rw [hcl] at ha
        left
        exact ha
    · right
      exact ⟨k2, by simp [hk2], hc⟩

lemma find_partitions_keysC2_eval :
    find_partitions keysC2 "20240101-20240201" =
      some ("20240115T120000Z", "acct/20240101-20240201/20240115T120000Z") := by
  have h : bootVersioned keysC2 "20240101-20240201" =
      [("20240115T120000Z", "acct/20240101-20240201/20240115T120000Z")] := by decide
  simp [find_partitions, h]

/-- C2 counterexample: from a listing holding only an assembly manifest
(no `.csv.gz` anywhere), the backfill still selects that assembly folder
for its billing period and would hand it to the partition create-or-update,
while the Lambda's completeness gate on the very same listing refuses to
repoint (no data file found) — the two do not apply the same completeness
logic. -/
theorem bootstrap_selects_incomplete_assembly :
    find_partitions keysC2 "20240101-20240201" =
      some ("20240115T120000Z", "acct/20240101-20240201/20240115T120000Z") ∧
    keysC2.filter (fun k => pyEndsWith k ".csv.gz") = [] ∧
    (update_athena_partition envC2 cfgGlue "dst" keyM).1 =
      Except.ok (UpdateOutcome.skipped SkipReason.noDataFiles) :=
  ⟨find_partitions_keysC2_eval, by decide, rfl⟩

/-- C2 (amended): per billing period, the backfill selects the entry with
the lexicographically greatest assembly id among all versioned entries
derived from the listing (any key inside an assembly folder contributes,
with no data-file completeness check), falling back to a flat entry, which
itself only ever arises from a key ending in `.csv.gz`. -/
theorem find_partitions_selects_latest :
    (∀ (keys : List String) (period label path : String),
      find_partitions keys period = some (label, path) →
      ((label, path) ∈ bootVersioned keys period ∧
        ∀ ap ∈ bootVersioned keys period, ap.1 ≤ label) ∨
      (bootVersioned keys period = [] ∧ label = "flat" ∧
        bootFlat keys period = some path)) ∧
    (∀ (keys : List String) (period path : String),
      bootFlat keys period = some path →
      ∃ k ∈ keys, pyEndsWith k ".csv.gz" = true ∧
        classifyBootKey k = BootKeyClass.flatKey period path) := by
  constructor
  · intro keys period label path h
    by_cases hv : bootVersioned keys period = []
    · right
      simp only [find_partitions, hv, List.isEmpty_nil, if_true] at h
      cases hf : bootFlat keys period with
      | none => rw [hf] at h; cases h
      | some p =>
        rw [hf] at h
        injection h with h2
        injection h2 with hl hp
        refine ⟨hv, hl.symm, ?_⟩
        rw [← hp]
    · left
      have hne : (bootVersioned keys period).isEmpty = false := by
        simp [List.isEmpty_iff, hv]
      simp only [find_partitions, hne, Bool.false_eq_true, if_false] at h
      injection h with h2
      have hsne : (bootVersioned keys period).mergeSort assemblyLe ≠ [] := by
        intro hc
        apply hv
        have hlen := congrArg List.length hc
        rw [List.length_mergeSort] at hlen
        exact List.length_eq_zero.1 hlen
      have hlast : ((bootVersioned keys period).mergeSort assemblyLe).getLast? =
          some (((bootVersioned keys period).mergeSort assemblyLe).getLastD ("", "")) := by
        rw [List.getLastD_eq_getLast?]
        cases hq : ((bootVersioned keys period).mergeSort assemblyLe).getLast? with
        | none => exact absurd (List.getLast?_eq_none_iff.1 hq) hsne
        | some v => simp
      have hmem := List.mem_of_getLast?_eq_some hlast
      have hsorted : ((bootVersioned keys period).mergeSort assemblyLe).Pairwise
          (fun a b => assemblyLe a b = true) :=
        List.sorted_mergeSort (fun a b c => assemblyLe_trans a b c)
          (fun a b => assemblyLe_total a b) (bootVersioned keys period)
      constructor
      · rw [← h2]
        exact List.mem_mergeSort.1 hmem
      · intro ap hap
        have hap2 : ap ∈ (bootVersioned keys period).mergeSort assemblyLe :=
          List.mem_mergeSort.2 hap
        rcases pairwise_getLast? _ _ hsorted ap hap2 _ hlast with heq | hle
        · rw [heq, h2]
        · simp only [assemblyLe, decide_eq_true_eq] at hle
          rw [h2] at hle
          exact hle
  · intro keys period path h
    rcases bootFlat_from period keys none path h with hnone | ⟨k, hk, hc⟩
    · cases hnone
    · exact ⟨k, hk, scanParts_flat _ _ _ _ _ hc, hc⟩

/-- Witness for C2 (amended): on the manifest-only listing the selected
entry is the sole versioned candidate, maximal among candidates. -/
theorem find_partitions_selects_latest_witness :
    (("20240115T120000Z", "acct/20240101-20240201/20240115T120000Z") ∈
        bootVersioned keysC2 "20240101-20240201" ∧
      ∀ ap ∈ bootVersioned keysC2 "20240101-20240201", ap.1 ≤ "20240115T120000Z") ∨
    (bootVersioned keysC2 "20240101-20240201" = [] ∧ ("20240115T120000Z" : String) = "flat" ∧
      bootFlat keysC2 "20240101-20240201" =
        some "acct/20240101-20240201/20240115T120000Z") :=
  find_partitions_selects_latest.1 keysC2 "20240101-20240201" "20240115T120000Z"
    "acct/20240101-20240201/20240115T120000Z" find_partitions_keysC2_eval
